import Mathlib

/-!
Shallow embedding of demeter/demeter_io/reader.py and proofs about its
normalization routines.  Python floats are modelled as rationals, numpy
arrays as lists, pandas data frames as named columns, Python exceptions
as an error type returned through Except, and the logging side channel
as an explicit list of emitted messages.  The trigonometric functions
supplied by numpy are treated as abstract function parameters.
-/

namespace Demeter

/-- Python exceptions that the reader code can raise. -/
inductive PyErr where
  | keyError (key : String)
  | unboundLocal (var : String)
deriving DecidableEq

/-- Model of the str.lower method: lower-case every character. -/
def pyLower (s : String) : String := String.mk (s.data.map Char.toLower)

/-- Numeric value of a decimal digit character, none for non-digits. -/
def digitVal? (ch : Char) : Option Nat :=
  if 48 ≤ ch.toNat ∧ ch.toNat ≤ 57 then some (ch.toNat - 48) else none

/-- Accumulate a decimal value over a character list; none when any character is not a digit. -/
def digitsVal : List Char → Option Nat → Option Nat
  | [], acc => acc
  | ch :: rest, acc =>
    match acc, digitVal? ch with
    | some n, some d => digitsVal rest (some (n * 10 + d))
    | _, _ => none

/-- Model of the Python int constructor applied to a string: an optional
sign followed by at least one decimal digit; anything else fails. -/
def pyInt? (s : String) : Option Int :=
  match s.data with
  | [] => none
  | '-' :: [] => none
  | '+' :: [] => none
  | '-' :: c :: rest => (digitsVal (c :: rest) (some 0)).map (fun n => -(n : Int))
  | '+' :: c :: rest => (digitsVal (c :: rest) (some 0)).map (fun n => (n : Int))
  | l => (digitsVal l (some 0)).map (fun n => (n : Int))

/-- Code-point lexicographic comparison of character lists, the order numpy
uses when sorting or comparing unicode string arrays. -/
def lexLe : List Char → List Char → Bool
  | [], _ => true
  | _ :: _, [] => false
  | a :: as, b :: bs =>
    if a.toNat < b.toNat then true
    else if b.toNat < a.toNat then false
    else lexLe as bs

/-- Code-point lexicographic comparison of strings. -/
def strLeB (a b : String) : Bool := lexLe a.data b.data

/-- Model of numpy sort on a list over a linear order. -/
def npSort {α : Type} [LinearOrder α] (l : List α) : List α :=
  List.insertionSort (fun a b => a ≤ b) l

/-- Sorted list of the distinct values of a list, as numpy unique returns
for the result of a sort, or as sort_values followed by unique in pandas. -/
def sortedUniq {α : Type} [LinearOrder α] (l : List α) : List α :=
  (npSort l).dedup

theorem sortedUniq_sorted {α : Type} [LinearOrder α] (l : List α) :
    List.Sorted (fun a b => a ≤ b) (sortedUniq l) :=
  List.Pairwise.sublist (List.dedup_sublist (npSort l))
    (List.sorted_insertionSort (fun a b => a ≤ b) l)

theorem sortedUniq_nodup {α : Type} [LinearOrder α] (l : List α) :
    (sortedUniq l).Nodup :=
  List.nodup_dedup _

theorem mem_sortedUniq {α : Type} [LinearOrder α] {l : List α} {a : α} :
    a ∈ sortedUniq l ↔ a ∈ l := by
  unfold sortedUniq npSort
  rw [List.mem_dedup, List.mem_insertionSort]

theorem sortedUniq_eq_nil {α : Type} [LinearOrder α] {l : List α} :
    sortedUniq l = [] ↔ l = [] := by
  unfold sortedUniq npSort
  rw [List.dedup_eq_nil]
  constructor
  · intro h
    have hp := List.perm_insertionSort (fun a b => a ≤ b) l
    rw [h] at hp
    exact hp.symm.eq_nil
  · intro h; rw [h]; rfl

theorem sortedUniq_length_eq_dedup {α : Type} [LinearOrder α] (l : List α) :
    (sortedUniq l).length = l.dedup.length := by
  refine List.Perm.length_eq ?_
  rw [List.perm_ext_iff_of_nodup (sortedUniq_nodup l) (List.nodup_dedup l)]
  intro a
  rw [mem_sortedUniq, List.mem_dedup]

/-- Selection of the projected time steps from the column labels of the
data frame, translated from the function get_steps of reader.py: a loop
over the labels that keeps the integer parses lying in the given range
and silently skips labels that do not parse. -/
def _get_steps (columns : List String) (start_step end_step : Int) : List Int :=
  columns.foldl
    (fun l i =>
      match pyInt? i with
      | some y => if start_step ≤ y ∧ y ≤ end_step then l ++ [y] else l
      | none => l) []

/-- Filter function equivalent of one loop iteration of get_steps. -/
def stepKeep (start_step end_step : Int) (i : String) : Option Int :=
  (pyInt? i).bind (fun y => if start_step ≤ y ∧ y ≤ end_step then some y else none)

theorem get_steps_foldl_eq (start_step end_step : Int) (columns : List String)
    (acc : List Int) :
    columns.foldl
      (fun l i =>
        match pyInt? i with
        | some y => if start_step ≤ y ∧ y ≤ end_step then l ++ [y] else l
        | none => l) acc
      = acc ++ columns.filterMap (stepKeep start_step end_step) := by
  induction columns generalizing acc with
  | nil => simp
  | cons c cs ih =>
    simp only [List.foldl_cons, List.filterMap_cons, stepKeep]
    cases hc : pyInt? c with
    | none => simpa [hc] using ih acc
    | some y =>
      by_cases hy : start_step ≤ y ∧ y ≤ end_step
      · simp [hy, ih, List.append_assoc]
      · simp [hy, ih]

/-- The time-step selector returns exactly the in-range integer parses of
the labels, in original order, and an inverted range yields the empty list. -/
theorem c6_time_step_selector (columns : List String) (start_step end_step : Int) :
    _get_steps columns start_step end_step
      = columns.filterMap (stepKeep start_step end_step) ∧
    (end_step < start_step → _get_steps columns start_step end_step = []) := by
  constructor
  · unfold _get_steps
    simpa using get_steps_foldl_eq start_step end_step columns []
  · intro hlt
    unfold _get_steps
    rw [get_steps_foldl_eq start_step end_step columns [], List.nil_append]
    rw [List.filterMap_eq_nil_iff]
    intro i _
    unfold stepKeep
    cases pyInt? i with
    | none => rfl
    | some y =>
      have : ¬ (start_step ≤ y ∧ y ≤ end_step) := by
        rintro ⟨h1, h2⟩
        exact absurd (le_trans h1 h2) (not_le.mpr hlt)
      simp [this]

/-- Witness: an inverted range on a parseable label list gives the empty list. -/
theorem c6_time_step_selector_witness : _get_steps ["a", "1999", "2005"] 2010 2000 = [] :=
  (c6_time_step_selector ["a", "1999", "2005"] 2010 2000).2 (by decide)

instance strLeBDecRel : DecidableRel (fun x y : String => strLeB x y = true) :=
  fun x y => inferInstanceAs (Decidable (strLeB x y = true))

/-- Model of numpy setdiff1d on string lists: the sorted unique values of
the first list that are not present in the second. -/
def setdiff1d (a b : List String) : List String :=
  List.insertionSort (fun x y => strLeB x y = true)
    ((a.filter (fun x => decide (x ∉ b))).dedup)

theorem setdiff1d_eq_nil_iff {a b : List String} :
    setdiff1d a b = [] ↔ ∀ x ∈ a, x ∈ b := by
  unfold setdiff1d
  constructor
  · intro h
    have hp := List.perm_insertionSort (fun x y => strLeB x y = true)
      ((a.filter (fun x => decide (x ∉ b))).dedup)
    rw [h] at hp
    have hd := hp.symm.eq_nil
    rw [List.dedup_eq_nil, List.filter_eq_nil_iff] at hd
    intro x hx
    have := hd x hx
    simpa using this
  · intro h
    have hf : a.filter (fun x => decide (x ∉ b)) = [] := by
      rw [List.filter_eq_nil_iff]
      intro x hx
      simpa using h x hx
    rw [hf]
    rfl

theorem setdiff1d_ne_nil_iff {a b : List String} :
    setdiff1d a b ≠ [] ↔ ∃ x ∈ a, x ∉ b := by
  rw [Ne, setdiff1d_eq_nil_iff]
  push_neg
  rfl

/-- Warnings emitted by the constraint checker; the payload carries the class
list interpolated into the logged message. -/
inductive ConstraintWarning where
  | inAllocNotInProjected (classes : List String)
  | inProjectedNotInAlloc (classes : List String)
deriving DecidableEq

/-- Constraint checker translated from check_constraints of reader.py: both
class lists are lower-cased, the two one-sided set differences are computed
with setdiff1d, and a warning is logged for each non-empty difference.  The
returned list holds the warnings passed to the logger, in emission order. -/
def _check_constraints (allocate actual : List String) : List ConstraintWarning :=
  let act := actual.map pyLower
  let alloc := allocate.map pyLower
  let act_extra := setdiff1d alloc act
  let alloc_extra := setdiff1d act alloc
  if 0 < alloc_extra.length ∧ 0 < act_extra.length then
    [ConstraintWarning.inAllocNotInProjected alloc_extra,
     ConstraintWarning.inProjectedNotInAlloc act_extra]
  else if 0 < alloc_extra.length ∧ act_extra.length = 0 then
    [ConstraintWarning.inAllocNotInProjected alloc_extra]
  else if alloc_extra.length = 0 ∧ 0 < act_extra.length then
    [ConstraintWarning.inProjectedNotInAlloc act_extra]
  else []

/-- C5: the constraint checker is a total function that emits one warning per
non-empty one-sided difference of the lower-cased class sets: warnings exist
exactly when the case-insensitive symmetric difference is non-empty, two
warnings when both one-sided differences are non-empty, one when exactly one
is, none when the sets agree. -/
theorem check_constraints_eq (allocate actual : List String) :
    _check_constraints allocate actual =
      (if 0 < (setdiff1d (actual.map pyLower) (allocate.map pyLower)).length ∧
           0 < (setdiff1d (allocate.map pyLower) (actual.map pyLower)).length then
        [ConstraintWarning.inAllocNotInProjected
           (setdiff1d (actual.map pyLower) (allocate.map pyLower)),
         ConstraintWarning.inProjectedNotInAlloc
           (setdiff1d (allocate.map pyLower) (actual.map pyLower))]
      else if 0 < (setdiff1d (actual.map pyLower) (allocate.map pyLower)).length ∧
           (setdiff1d (allocate.map pyLower) (actual.map pyLower)).length = 0 then
        [ConstraintWarning.inAllocNotInProjected
           (setdiff1d (actual.map pyLower) (allocate.map pyLower))]
      else if (setdiff1d (actual.map pyLower) (allocate.map pyLower)).length = 0 ∧
           0 < (setdiff1d (allocate.map pyLower) (actual.map pyLower)).length then
        [ConstraintWarning.inProjectedNotInAlloc
           (setdiff1d (allocate.map pyLower) (actual.map pyLower))]
      else []) := rfl

theorem c5_check_constraints (allocate actual : List String) :
    (_check_constraints allocate actual ≠ [] ↔
      ∃ x, (x ∈ allocate.map pyLower ∧ x ∉ actual.map pyLower) ∨
           (x ∈ actual.map pyLower ∧ x ∉ allocate.map pyLower)) ∧
    (_check_constraints allocate actual).length =
      ((if ∃ x ∈ actual.map pyLower, x ∉ allocate.map pyLower then 1 else 0) +
       (if ∃ x ∈ allocate.map pyLower, x ∉ actual.map pyLower then 1 else 0)) := by
  classical
  have hq : setdiff1d (allocate.map pyLower) (actual.map pyLower) ≠ [] ↔
      ∃ x ∈ allocate.map pyLower, x ∉ actual.map pyLower := setdiff1d_ne_nil_iff
  have hp : setdiff1d (actual.map pyLower) (allocate.map pyLower) ≠ [] ↔
      ∃ x ∈ actual.map pyLower, x ∉ allocate.map pyLower := setdiff1d_ne_nil_iff
  by_cases hP : ∃ x ∈ actual.map pyLower, x ∉ allocate.map pyLower <;>
    by_cases hQ : ∃ x ∈ allocate.map pyLower, x ∉ actual.map pyLower
  · have h1 : 0 < (setdiff1d (actual.map pyLower) (allocate.map pyLower)).length :=
      List.length_pos.mpr (hp.mpr hP)
    have h2 : 0 < (setdiff1d (allocate.map pyLower) (actual.map pyLower)).length :=
      List.length_pos.mpr (hq.mpr hQ)
    rw [check_constraints_eq, if_pos (And.intro h1 h2)]
    constructor
    · constructor
      · intro _
        obtain ⟨x, hx1, hx2⟩ := hQ
        exact ⟨x, Or.inl ⟨hx1, hx2⟩⟩
      · intro _
        exact List.cons_ne_nil _ _
    · rw [if_pos hP, if_pos hQ]
      rfl
  · have h1 : 0 < (setdiff1d (actual.map pyLower) (allocate.map pyLower)).length :=
      List.length_pos.mpr (hp.mpr hP)
    have h2 : (setdiff1d (allocate.map pyLower) (actual.map pyLower)).length = 0 := by
      rw [List.length_eq_zero]
      by_contra hne
      exact hQ (hq.mp hne)
    have hno : ¬ (0 < (setdiff1d (actual.map pyLower) (allocate.map pyLower)).length ∧
        0 < (setdiff1d (allocate.map pyLower) (actual.map pyLower)).length) := by
      rintro ⟨_, hc⟩
      omega
    rw [check_constraints_eq, if_neg hno, if_pos (And.intro h1 h2)]
    constructor
    · constructor
      · intro _
        obtain ⟨x, hx1, hx2⟩ := hP
        exact ⟨x, Or.inr ⟨hx1, hx2⟩⟩
      · intro _
        exact List.cons_ne_nil _ _
    · rw [if_pos hP, if_neg hQ]
      rfl
  · have h1 : (setdiff1d (actual.map pyLower) (allocate.map pyLower)).length = 0 := by
      rw [List.length_eq_zero]
      by_contra hne
      exact hP (hp.mp hne)
    have h2 : 0 < (setdiff1d (allocate.map pyLower) (actual.map pyLower)).length :=
      List.length_pos.mpr (hq.mpr hQ)
    have hno : ¬ (0 < (setdiff1d (actual.map pyLower) (allocate.map pyLower)).length ∧
        0 < (setdiff1d (allocate.map pyLower) (actual.map pyLower)).length) := by
      rintro ⟨hc, _⟩
      omega
    have hno2 : ¬ (0 < (setdiff1d (actual.map pyLower) (allocate.map pyLower)).length ∧
        (setdiff1d (allocate.map pyLower) (actual.map pyLower)).length = 0) := by
      rintro ⟨hc, _⟩
      omega
    rw [check_constraints_eq, if_neg hno, if_neg hno2, if_pos (And.intro h1 h2)]
    constructor
    · constructor
      · intro _
        obtain ⟨x, hx1, hx2⟩ := hQ
        exact ⟨x, Or.inl ⟨hx1, hx2⟩⟩
      · intro _
        exact List.cons_ne_nil _ _
    · rw [if_neg hP, if_pos hQ]
      rfl
  · have h1 : (setdiff1d (actual.map pyLower) (allocate.map pyLower)).length = 0 := by
      rw [List.length_eq_zero]
      by_contra hne
      exact hP (hp.mp hne)
    have h2 : (setdiff1d (allocate.map pyLower) (actual.map pyLower)).length = 0 := by
      rw [List.length_eq_zero]
      by_contra hne
      exact hQ (hq.mp hne)
    have hno : ¬ (0 < (setdiff1d (actual.map pyLower) (allocate.map pyLower)).length ∧
        0 < (setdiff1d (allocate.map pyLower) (actual.map pyLower)).length) := by
      rintro ⟨hc, _⟩
      omega
    have hno2 : ¬ (0 < (setdiff1d (actual.map pyLower) (allocate.map pyLower)).length ∧
        (setdiff1d (allocate.map pyLower) (actual.map pyLower)).length = 0) := by
      rintro ⟨hc, _⟩
      omega
    have hno3 : ¬ ((setdiff1d (actual.map pyLower) (allocate.map pyLower)).length = 0 ∧
        0 < (setdiff1d (allocate.map pyLower) (actual.map pyLower)).length) := by
      rintro ⟨_, hc⟩
      omega
    rw [check_constraints_eq, if_neg hno, if_neg hno2, if_neg hno3]
    constructor
    · constructor
      · intro hfalse
        exact absurd rfl hfalse
      · rintro ⟨x, hcase⟩
        rcases hcase with ⟨hx1, hx2⟩ | ⟨hx1, hx2⟩
        · exact absurd (⟨x, hx1, hx2⟩ :
            ∃ x ∈ allocate.map pyLower, x ∉ actual.map pyLower) hQ
        · exact absurd (⟨x, hx1, hx2⟩ :
            ∃ x ∈ actual.map pyLower, x ∉ allocate.map pyLower) hP
    · rw [if_neg hP, if_neg hQ]
      rfl

/-- Raw value of the region column of the projection file: pandas reads it
either as an integer code or as a region-name string. -/
inductive RegVal where
  | int (n : Int)
  | str (s : String)
deriving DecidableEq

/-- String form of a region value, as numpy casts a mixed array to a
unicode string array. -/
def RegVal.toStr : RegVal → String
  | RegVal.int n => toString n
  | RegVal.str s => s

/-- Whether a region value is an integer code. -/
def RegVal.isInt : RegVal → Bool
  | RegVal.int _ => true
  | RegVal.str _ => false

/-- Integer code of a region value, zero for names; only consulted when the
whole column is integer typed. -/
def RegVal.intVal : RegVal → Int
  | RegVal.int n => n
  | RegVal.str _ => 0

instance regValIntLeDecRel : DecidableRel (fun a b : RegVal => a.intVal ≤ b.intVal) :=
  fun a b => inferInstanceAs (Decidable (a.intVal ≤ b.intVal))

instance regValStrLeDecRel : DecidableRel (fun a b : RegVal => strLeB a.toStr b.toStr = true) :=
  fun a b => inferInstanceAs (Decidable (strLeB a.toStr b.toStr = true))

/-- Model of numpy array sort on a region-value list: an all-integer column
sorts numerically, while a column holding any string is promoted to a
unicode array and sorts lexicographically on the string forms. -/
def sortRegVals (l : List RegVal) : List RegVal :=
  if l.all RegVal.isInt then
    List.insertionSort (fun a b => a.intVal ≤ b.intVal) l
  else
    List.insertionSort (fun a b => strLeB a.toStr b.toStr = true) l

/-- One row of the projection data frame: the region value, the raw metric
identifier of the basin or AEZ, and the land-class name. -/
structure GcamRow where
  region : RegVal
  metric_id : Int
  landclass : String
deriving DecidableEq

/-- The projection data frame: its rows together with the year-labelled
numeric columns of land-use area. -/
structure GcamTable where
  rows : List GcamRow
  yearCols : List (String × List Rat)
deriving DecidableEq

/-- Column labels of the projection data frame after the scenario column
has been attached. -/
def tableColumns (t : GcamTable) : List String :=
  ["region", "landclass", "metric_id"] ++ t.yearCols.map Prod.fst ++ ["scenario"]

/-- Sorted distinct raw metric identifiers of the projection table, from
sort_values followed by unique on the metric_id column. -/
def sortedMetricIds (t : GcamTable) : List Int :=
  sortedUniq (t.rows.map GcamRow.metric_id)

/-- The metric-index dictionary of read_gcam_file: each distinct raw metric
identifier, taken in ascending order, is mapped to its one-based position. -/
def luOf (t : GcamTable) (m : Int) : Nat :=
  List.indexOf m (sortedMetricIds t) + 1

/-- Sequential metric index column, the metric_id column mapped through the
dictionary. -/
def gcamMetricOf (t : GcamTable) : List Nat :=
  t.rows.map (fun r => luOf t r.metric_id)

/-- Land-use area matrix: the selected year columns of each row, scaled by
the area factor. -/
def ludataOf (t : GcamTable) (years : List Int) (area_factor : Rat) : List (List Rat) :=
  (List.range t.rows.length).map (fun i =>
    years.map (fun y =>
      (((t.yearCols.find? (fun p => decide (p.1 = toString y))).map Prod.snd).getD []).getD i 0
        * area_factor))

/-- The single-region shortcut test of read_gcam_file: the region column has
exactly one distinct value and that value is the integer one. -/
def singleRegionOne (rows : List GcamRow) : Prop :=
  (rows.map GcamRow.region).dedup = [RegVal.int 1]

instance (rows : List GcamRow) : Decidable (singleRegionOne rows) :=
  inferInstanceAs (Decidable ((rows.map GcamRow.region).dedup = [RegVal.int 1]))

/-- Row-wise lookup of the region reference dictionary, raising a KeyError
at the first region value without an entry. -/
def lookupRegions (region_dict : RegVal → Option Int) : List GcamRow → Except PyErr (List Int)
  | [] => Except.ok []
  | r :: rs =>
    match region_dict r.region with
    | none => Except.error (PyErr.keyError r.region.toStr)
    | some n =>
      match lookupRegions region_dict rs with
      | Except.ok ns => Except.ok (n :: ns)
      | Except.error e => Except.error e

/-- Region-number derivation of read_gcam_file: when the single-region
shortcut applies every row receives region number one and the reference
dictionary is never read; otherwise every region value is looked up. -/
def regionNumbersOf (rows : List GcamRow) (region_dict : RegVal → Option Int) :
    Except PyErr (List Int) :=
  if singleRegionOne rows then Except.ok (rows.map (fun _ => (1 : Int)))
  else lookupRegions region_dict rows

/-- Python list.insert index resolution: a negative index counts from the
end and clamps at zero, a large index clamps at the length. -/
def pyResolve (i : Int) (n : Nat) : Nat :=
  if i < 0 then ((n : Int) + i).toNat else min i.toNat n

/-- Python list.insert: place the element at the resolved position. -/
def pyInsert {α : Type} (l : List α) (i : Int) (x : α) : List α :=
  l.take (pyResolve i l.length) ++ x :: l.drop (pyResolve i l.length)

/-- Grouping of the sequential metric indices by region number, as the
pandas groupby produces: group keys in ascending order, one sorted
duplicate-free metric list per key. -/
def groupLists (pairs : List (Int × Nat)) : List (List Nat) :=
  (sortedUniq (pairs.map Prod.fst)).map
    (fun r => sortedUniq ((pairs.filter (fun p => decide (p.1 = r))).map Prod.snd))

/-- Sorted region-value array of read_gcam_file, with the special-case
region name appended before sorting under aggregation level two. -/
def allregOf (rows : List GcamRow) (agg_level : Int) : List RegVal :=
  sortRegVals ((rows.map GcamRow.region).dedup ++
    (if agg_level = 2 then [RegVal.str "Taiwan"] else []))

/-- Sorted region-number array, with the special-case region number
appended before sorting under aggregation level two; numpy sort keeps
duplicates. -/
def allregnumberOf (rn : List Int) (agg_level : Int) : List Int :=
  npSort (rn.dedup ++ (if agg_level = 2 then [(30 : Int)] else []))

/-- Zero-based position of the special-case region name in the sorted
region-value array, minus one, as numpy where computes it. -/
def taiwanIdxOf (allreg : List RegVal) : Int :=
  (List.indexOf "Taiwan" (allreg.map RegVal.toStr) : Int) - 1

/-- Per-region metric-index lists of read_gcam_file: the groupby lists,
with an empty placeholder list inserted under aggregation level two at
the position named by the special-case region in the sorted region-value
array. -/
def allregaezOf (rn : List Int) (gm : List Nat) (agg_level : Int) (allreg : List RegVal) :
    List (List Nat) :=
  if agg_level = 2 then
    pyInsert (groupLists (rn.zip gm)) (taiwanIdxOf allreg) []
  else groupLists (rn.zip gm)

/-- Everything read_gcam_file returns. -/
structure GcamOut where
  user_years : List Int
  gcam_ludata : List (List Rat)
  gcam_metric : List Nat
  gcam_landname : List String
  gcam_regionnumber : List Int
  allreg : List RegVal
  allregnumber : List Int
  allregaez : List (List Nat)
  allmetric : List Nat
  metric_id_array : List Int
deriving DecidableEq

/-- Assembly of the outputs of read_gcam_file once the region numbers are
known; every field is translated from the corresponding numpy or pandas
expression of the source. -/
def mkGcamOut (t : GcamTable) (start_yr end_yr : Int) (rn : List Int) (agg_level : Int)
    (area_factor : Rat) : GcamOut :=
  { user_years := _get_steps (tableColumns t) start_yr end_yr
    gcam_ludata := ludataOf t (_get_steps (tableColumns t) start_yr end_yr) area_factor
    gcam_metric := gcamMetricOf t
    gcam_landname := t.rows.map (fun r => pyLower r.landclass)
    gcam_regionnumber := rn
    allreg := allregOf t.rows agg_level
    allregnumber := allregnumberOf rn agg_level
    allregaez := allregaezOf rn (gcamMetricOf t) agg_level (allregOf t.rows agg_level)
    allmetric := sortedUniq (gcamMetricOf t)
    metric_id_array := t.rows.map GcamRow.metric_id }

/-- Projection normalizer translated from read_gcam_file of reader.py.  The
constraint check against the allocation land classes only logs and cannot
change the result; the scenario label is attached to every row and does
not appear in the returned tuple.  The only failure is the KeyError of the
region-dictionary lookup. -/
def read_gcam_file (t : GcamTable) (gcam_landclasses : List String)
    (start_yr end_yr : Int) (scen : String) (region_dict : RegVal → Option Int)
    (agg_level : Int) (area_factor : Rat) : Except PyErr GcamOut :=
  match regionNumbersOf t.rows region_dict with
  | Except.error e => Except.error e
  | Except.ok rn => Except.ok (mkGcamOut t start_yr end_yr rn agg_level area_factor)

theorem read_gcam_ok_out {t : GcamTable} {lc : List String} {sy ey : Int} {sc : String}
    {d : RegVal → Option Int} {agg : Int} {af : Rat} {out : GcamOut}
    (hout : read_gcam_file t lc sy ey sc d agg af = Except.ok out) :
    ∃ rn, regionNumbersOf t.rows d = Except.ok rn ∧ out = mkGcamOut t sy ey rn agg af := by
  unfold read_gcam_file at hout
  cases hr : regionNumbersOf t.rows d with
  | error e =>
    rw [hr] at hout
    exact absurd hout (by simp)
  | ok rn =>
    rw [hr] at hout
    simp only [Except.ok.injEq] at hout
    exact ⟨rn, rfl, hout.symm⟩

theorem luOf_mem_bounds (t : GcamTable) {m : Int}
    (hm : m ∈ t.rows.map GcamRow.metric_id) :
    1 ≤ luOf t m ∧ luOf t m ≤ (sortedMetricIds t).length := by
  have hmem : m ∈ sortedMetricIds t := mem_sortedUniq.mpr hm
  have hlt : List.indexOf m (sortedMetricIds t) < (sortedMetricIds t).length :=
    List.indexOf_lt_length.mpr hmem
  unfold luOf
  omega

theorem luOf_inj (t : GcamTable) {m1 m2 : Int}
    (h1 : m1 ∈ t.rows.map GcamRow.metric_id) (h2 : m2 ∈ t.rows.map GcamRow.metric_id)
    (h : luOf t m1 = luOf t m2) : m1 = m2 := by
  have heq : List.indexOf m1 (sortedMetricIds t) = List.indexOf m2 (sortedMetricIds t) := by
    unfold luOf at h
    omega
  exact (List.indexOf_inj (mem_sortedUniq.mpr h1) (mem_sortedUniq.mpr h2)).mp heq

theorem luOf_surj (t : GcamTable) {k : Nat} (h1 : 1 ≤ k)
    (h2 : k ≤ (sortedMetricIds t).length) :
    ∃ m ∈ t.rows.map GcamRow.metric_id, luOf t m = k := by
  have hk : k - 1 < (sortedMetricIds t).length := by omega
  refine ⟨(sortedMetricIds t).get ⟨k - 1, hk⟩, ?_, ?_⟩
  · exact mem_sortedUniq.mp (List.get_mem _ _ _)
  · have hnd : (sortedMetricIds t).Nodup := sortedUniq_nodup _
    unfold luOf
    rw [List.get_indexOf hnd ⟨k - 1, hk⟩]
    show k - 1 + 1 = k
    omega

theorem luOf_mono (t : GcamTable) {m1 m2 : Int}
    (h1 : m1 ∈ t.rows.map GcamRow.metric_id) (h2 : m2 ∈ t.rows.map GcamRow.metric_id)
    (hlt : m1 < m2) : luOf t m1 < luOf t m2 := by
  have hm1 : m1 ∈ sortedMetricIds t := mem_sortedUniq.mpr h1
  have hm2 : m2 ∈ sortedMetricIds t := mem_sortedUniq.mpr h2
  have hi1 : List.indexOf m1 (sortedMetricIds t) < (sortedMetricIds t).length :=
    List.indexOf_lt_length.mpr hm1
  have hi2 : List.indexOf m2 (sortedMetricIds t) < (sortedMetricIds t).length :=
    List.indexOf_lt_length.mpr hm2
  have hg1 : (sortedMetricIds t).get ⟨List.indexOf m1 (sortedMetricIds t), hi1⟩ = m1 :=
    List.indexOf_get hi1
  have hg2 : (sortedMetricIds t).get ⟨List.indexOf m2 (sortedMetricIds t), hi2⟩ = m2 :=
    List.indexOf_get hi2
  rcases lt_trichotomy (List.indexOf m1 (sortedMetricIds t))
      (List.indexOf m2 (sortedMetricIds t)) with hcase | hcase | hcase
  · unfold luOf
    omega
  · exfalso
    have : m1 = m2 := (List.indexOf_inj hm1 hm2).mp hcase
    exact absurd this (ne_of_lt hlt)
  · exfalso
    have hsorted : List.Sorted (fun a b => a ≤ b) (sortedMetricIds t) := sortedUniq_sorted _
    have hrel := List.Sorted.rel_get_of_lt hsorted
      (a := ⟨List.indexOf m2 (sortedMetricIds t), hi2⟩)
      (b := ⟨List.indexOf m1 (sortedMetricIds t), hi1⟩) (Fin.mk_lt_mk.mpr hcase)
    rw [hg1, hg2] at hrel
    exact absurd hrel (not_le.mpr hlt)

/-- C1: the metric-index dictionary of the projection normalizer maps the
distinct raw metric identifiers bijectively onto the range from one to the
count of distinct identifiers, in ascending identifier order, and the
sequential metric column of the output is the metric_id column mapped
through the dictionary. -/
theorem c1_metric_index_bijection (t : GcamTable) (gcam_landclasses : List String)
    (start_yr end_yr : Int) (scen : String) (region_dict : RegVal → Option Int)
    (agg_level : Int) (area_factor : Rat) (out : GcamOut)
    (hout : read_gcam_file t gcam_landclasses start_yr end_yr scen region_dict
      agg_level area_factor = Except.ok out) :
    (sortedMetricIds t).length = (t.rows.map GcamRow.metric_id).dedup.length ∧
    (∀ m ∈ t.rows.map GcamRow.metric_id,
      1 ≤ luOf t m ∧ luOf t m ≤ (sortedMetricIds t).length) ∧
    (∀ m1 ∈ t.rows.map GcamRow.metric_id, ∀ m2 ∈ t.rows.map GcamRow.metric_id,
      luOf t m1 = luOf t m2 → m1 = m2) ∧
    (∀ k : Nat, 1 ≤ k → k ≤ (sortedMetricIds t).length →
      ∃ m ∈ t.rows.map GcamRow.metric_id, luOf t m = k) ∧
    (∀ m1 ∈ t.rows.map GcamRow.metric_id, ∀ m2 ∈ t.rows.map GcamRow.metric_id,
      m1 < m2 → luOf t m1 < luOf t m2) ∧
    out.gcam_metric = t.rows.map (fun r => luOf t r.metric_id) := by
  obtain ⟨rn, _, hout_eq⟩ := read_gcam_ok_out hout
  refine ⟨sortedUniq_length_eq_dedup _, ?_, ?_, ?_, ?_, ?_⟩
  · intro m hm
    exact luOf_mem_bounds t hm
  · intro m1 h1 m2 h2 h
    exact luOf_inj t h1 h2 h
  · intro k h1 h2
    exact luOf_surj t h1 h2
  · intro m1 h1 m2 h2 hlt
    exact luOf_mono t h1 h2 hlt
  · rw [hout_eq]
    rfl

/-- Witness output for the bijection theorem at a concrete projection table. -/
def c3rows : List GcamRow :=
  [⟨RegVal.str "USA", 1, "crops"⟩, ⟨RegVal.str "China", 2, "crops"⟩]

/-- Concrete projection table with two named regions. -/
def c3table : GcamTable := ⟨c3rows, []⟩

/-- Concrete region reference dictionary mapping USA to one and China to eleven. -/
def c3dict : RegVal → Option Int := fun v =>
  if v = RegVal.str "USA" then some 1
  else if v = RegVal.str "China" then some 11
  else none

/-- Fallback output used when extracting from an error value. -/
def emptyGcamOut : GcamOut := ⟨[], [], [], [], [], [], [], [], [], []⟩

/-- Extract the output of a successful read, with an inert fallback. -/
def okG (e : Except PyErr GcamOut) : GcamOut :=
  match e with
  | Except.ok o => o
  | Except.error _ => emptyGcamOut

/-- Output of read_gcam_file on the concrete two-region table at aggregation level two. -/
def c3out : GcamOut := okG (read_gcam_file c3table ["crops"] 2005 2010 "sc" c3dict 2 1000)

/-- Output of read_gcam_file on the concrete two-region table at aggregation level one. -/
def c1out : GcamOut := okG (read_gcam_file c3table ["crops"] 2005 2010 "sc" c3dict 1 1000)

/-- Witness: the bijection theorem applied to the concrete two-region table. -/
theorem c1_metric_index_bijection_witness :
    c1out.gcam_metric = c3table.rows.map (fun r => luOf c3table r.metric_id) :=
  (c1_metric_index_bijection c3table ["crops"] 2005 2010 "sc" c3dict 1 1000 c1out
    rfl).2.2.2.2.2

theorem lookupRegions_ok_getElem {d : RegVal → Option Int} {rows : List GcamRow}
    {ns : List Int} (h : lookupRegions d rows = Except.ok ns) :
    ∀ i : Nat, ns[i]? = (rows[i]?.map GcamRow.region).bind d := by
  induction rows generalizing ns with
  | nil =>
    intro i
    unfold lookupRegions at h
    simp only [Except.ok.injEq] at h
    subst h
    simp
  | cons r rs ih =>
    intro i
    unfold lookupRegions at h
    cases hd : d r.region with
    | none =>
      rw [hd] at h
      exact absurd h (by simp)
    | some n =>
      rw [hd] at h
      cases hrec : lookupRegions d rs with
      | error e =>
        rw [hrec] at h
        exact absurd h (by simp)
      | ok ms =>
        rw [hrec] at h
        simp only [Except.ok.injEq] at h
        subst h
        cases i with
        | zero =>
          simp [hd]
        | succ j =>
          rw [List.getElem?_cons_succ, List.getElem?_cons_succ]
          exact ih hrec j

theorem lookupRegions_length {d : RegVal → Option Int} {rows : List GcamRow}
    {ns : List Int} (h : lookupRegions d rows = Except.ok ns) :
    ns.length = rows.length := by
  induction rows generalizing ns with
  | nil =>
    unfold lookupRegions at h
    simp only [Except.ok.injEq] at h
    subst h
    rfl
  | cons r rs ih =>
    unfold lookupRegions at h
    cases hd : d r.region with
    | none =>
      rw [hd] at h
      exact absurd h (by simp)
    | some n =>
      rw [hd] at h
      cases hrec : lookupRegions d rs with
      | error e =>
        rw [hrec] at h
        exact absurd h (by simp)
      | ok ms =>
        rw [hrec] at h
        simp only [Except.ok.injEq] at h
        subst h
        simp only [List.length_cons]
        rw [ih hrec]

theorem lookupRegions_missing {d : RegVal → Option Int} {rows : List GcamRow}
    (h : ∃ r ∈ rows, d r.region = none) :
    ∃ k, lookupRegions d rows = Except.error (PyErr.keyError k) := by
  induction rows with
  | nil =>
    obtain ⟨r, hr, _⟩ := h
    exact absurd hr (List.not_mem_nil r)
  | cons r0 rs ih =>
    cases hd : d r0.region with
    | none =>
      refine ⟨r0.region.toStr, ?_⟩
      unfold lookupRegions
      rw [hd]
    | some n =>
      obtain ⟨r, hr, hrnone⟩ := h
      rcases List.mem_cons.mp hr with hr0 | hrs
      · subst hr0
        rw [hd] at hrnone
        exact absurd hrnone (by simp)
      · obtain ⟨k, hk⟩ := ih ⟨r, hrs, hrnone⟩
        refine ⟨k, ?_⟩
        unfold lookupRegions
        rw [hd, hk]

theorem regionNumbersOf_ok_length {rows : List GcamRow} {d : RegVal → Option Int}
    {rn : List Int} (h : regionNumbersOf rows d = Except.ok rn) :
    rn.length = rows.length := by
  unfold regionNumbersOf at h
  by_cases hs : singleRegionOne rows
  · rw [if_pos hs] at h
    simp only [Except.ok.injEq] at h
    subst h
    exact List.length_map _ _
  · rw [if_neg hs] at h
    exact lookupRegions_length h

/-- C2: when the projection table has exactly one distinct region value and
it is the integer one, every row receives region number one and the result
does not depend on the reference dictionary at all; otherwise every row is
looked up in the dictionary and a KeyError is raised when some region value
is absent from it. -/
theorem c2_region_number_derivation (t : GcamTable) (gcam_landclasses : List String)
    (start_yr end_yr : Int) (scen : String) (d d2 : RegVal → Option Int)
    (agg_level : Int) (area_factor : Rat) :
    (singleRegionOne t.rows →
      read_gcam_file t gcam_landclasses start_yr end_yr scen d agg_level area_factor =
        read_gcam_file t gcam_landclasses start_yr end_yr scen d2 agg_level area_factor ∧
      (∀ out, read_gcam_file t gcam_landclasses start_yr end_yr scen d agg_level area_factor =
          Except.ok out →
        out.gcam_regionnumber = List.replicate t.rows.length 1)) ∧
    (¬ singleRegionOne t.rows →
      (∀ out, read_gcam_file t gcam_landclasses start_yr end_yr scen d agg_level area_factor =
          Except.ok out →
        ∀ i : Nat, out.gcam_regionnumber[i]? = (t.rows[i]?.map GcamRow.region).bind d) ∧
      ((∃ r ∈ t.rows, d r.region = none) →
        ∃ k, read_gcam_file t gcam_landclasses start_yr end_yr scen d agg_level area_factor =
          Except.error (PyErr.keyError k))) := by
  constructor
  · intro hs
    constructor
    · unfold read_gcam_file regionNumbersOf
      rw [if_pos hs, if_pos hs]
    · intro out hout
      obtain ⟨rn, hrn, hout_eq⟩ := read_gcam_ok_out hout
      unfold regionNumbersOf at hrn
      rw [if_pos hs] at hrn
      simp only [Except.ok.injEq] at hrn
      rw [hout_eq]
      show rn = List.replicate t.rows.length 1
      rw [← hrn]
      exact List.map_const' t.rows 1
  · intro hns
    constructor
    · intro out hout i
      obtain ⟨rn, hrn, hout_eq⟩ := read_gcam_ok_out hout
      unfold regionNumbersOf at hrn
      rw [if_neg hns] at hrn
      rw [hout_eq]
      show rn[i]? = (t.rows[i]?.map GcamRow.region).bind d
      exact lookupRegions_ok_getElem hrn i
    · intro hmiss
      obtain ⟨k, hk⟩ := lookupRegions_missing hmiss
      refine ⟨k, ?_⟩
      unfold read_gcam_file regionNumbersOf
      rw [if_neg hns, hk]

/-- Concrete single-region table whose region column is the integer one everywhere. -/
def c2table : GcamTable := ⟨[⟨RegVal.int 1, 7, "forest"⟩, ⟨RegVal.int 1, 3, "crops"⟩], []⟩

/-- Reference dictionary that would map every region value to five. -/
def c2dictA : RegVal → Option Int := fun _ => some 5

/-- Reference dictionary with no entries at all. -/
def c2dictB : RegVal → Option Int := fun _ => none

/-- Witness: on the single-region table the two wildly different reference
dictionaries produce identical results. -/
theorem c2_region_number_derivation_witness :
    read_gcam_file c2table ["crops"] 2005 2010 "sc" c2dictA 1 1000 =
      read_gcam_file c2table ["crops"] 2005 2010 "sc" c2dictB 1 1000 :=
  ((c2_region_number_derivation c2table ["crops"] 2005 2010 "sc" c2dictA c2dictB 1 1000).1
    (by decide)).1

theorem pyResolve_le (i : Int) (n : Nat) : pyResolve i n ≤ n := by
  unfold pyResolve
  split
  · omega
  · exact min_le_right _ _

theorem pyInsert_length {α : Type} (l : List α) (i : Int) (x : α) :
    (pyInsert l i x).length = l.length + 1 := by
  unfold pyInsert
  have h := pyResolve_le i l.length
  rw [List.length_append, List.length_take, min_eq_left h, List.length_cons,
    List.length_drop]
  omega

theorem pyInsert_getElem_self {α : Type} (l : List α) (i : Int) (x : α) :
    (pyInsert l i x)[pyResolve i l.length]? = some x := by
  unfold pyInsert
  have h := pyResolve_le i l.length
  rw [List.getElem?_append, List.length_take, min_eq_left h, if_neg (lt_irrefl _)]
  simp

theorem pyInsert_getElem_other {α : Type} (l : List α) (i : Int) (x : α) {j : Nat} {y : α}
    (hj : j ≠ pyResolve i l.length) (h : (pyInsert l i x)[j]? = some y) : y ∈ l := by
  unfold pyInsert at h
  have hle := pyResolve_le i l.length
  rw [List.getElem?_append, List.length_take, min_eq_left hle] at h
  by_cases hlt : j < pyResolve i l.length
  · rw [if_pos hlt] at h
    have hmem : y ∈ l.take (pyResolve i l.length) := by
      obtain ⟨hb, hg⟩ := List.getElem?_eq_some.mp h
      exact hg ▸ List.getElem_mem hb
    exact List.take_subset _ _ hmem
  · rw [if_neg hlt] at h
    have hgt : pyResolve i l.length < j := lt_of_le_of_ne (not_lt.mp hlt) (Ne.symm hj)
    have hsub : j - pyResolve i l.length = (j - pyResolve i l.length - 1) + 1 := by omega
    rw [hsub, List.getElem?_cons_succ] at h
    have hmem : y ∈ l.drop (pyResolve i l.length) := by
      obtain ⟨hb, hg⟩ := List.getElem?_eq_some.mp h
      exact hg ▸ List.getElem_mem hb
    exact List.drop_subset _ _ hmem

theorem groupLists_ne_nil (pairs : List (Int × Nat)) :
    ∀ g ∈ groupLists pairs, g ≠ [] := by
  intro g hg
  unfold groupLists at hg
  rw [List.mem_map] at hg
  obtain ⟨r, hr, hgr⟩ := hg
  intro hnil
  rw [← hgr] at hnil
  rw [sortedUniq_eq_nil, List.map_eq_nil_iff, List.filter_eq_nil_iff] at hnil
  have hr2 := mem_sortedUniq.mp hr
  rw [List.mem_map] at hr2
  obtain ⟨p, hp, hpr⟩ := hr2
  have := hnil p hp
  simp only [decide_eq_true_eq] at this
  exact this hpr

theorem groupLists_length (pairs : List (Int × Nat)) :
    (groupLists pairs).length = (pairs.map Prod.fst).dedup.length := by
  unfold groupLists
  rw [List.length_map]
  exact sortedUniq_length_eq_dedup _

theorem allregnumberOf_length (rn : List Int) (agg : Int) :
    (allregnumberOf rn agg).length = rn.dedup.length + (if agg = 2 then 1 else 0) := by
  unfold allregnumberOf npSort
  rw [(List.perm_insertionSort _ _).length_eq, List.length_append]
  by_cases h : agg = 2
  · rw [if_pos h, if_pos h]
    rfl
  · rw [if_neg h, if_neg h]
    rfl

/-- C9: on success the per-region metric-index list collection and the
unique-region-number array have the same length, namely one entry per
distinct region number present plus exactly one placeholder under
aggregation level two. -/
theorem c9_per_region_list_count (t : GcamTable) (gcam_landclasses : List String)
    (start_yr end_yr : Int) (scen : String) (region_dict : RegVal → Option Int)
    (agg_level : Int) (area_factor : Rat) (out : GcamOut)
    (hout : read_gcam_file t gcam_landclasses start_yr end_yr scen region_dict
      agg_level area_factor = Except.ok out) :
    out.allregaez.length = out.allregnumber.length ∧
    out.allregaez.length =
      out.gcam_regionnumber.dedup.length + (if agg_level = 2 then 1 else 0) := by
  obtain ⟨rn, hrn, hout_eq⟩ := read_gcam_ok_out hout
  subst hout_eq
  have hlen : rn.length = t.rows.length := regionNumbersOf_ok_length hrn
  have hgm : (gcamMetricOf t).length = t.rows.length := List.length_map _ _
  have hfst : (rn.zip (gcamMetricOf t)).map Prod.fst = rn :=
    List.map_fst_zip _ _ (by rw [hlen, hgm])
  have hgroup : (groupLists (rn.zip (gcamMetricOf t))).length = rn.dedup.length := by
    rw [groupLists_length, hfst]
  have haez : (mkGcamOut t start_yr end_yr rn agg_level area_factor).allregaez.length
      = rn.dedup.length + (if agg_level = 2 then 1 else 0) := by
    show (allregaezOf rn (gcamMetricOf t) agg_level (allregOf t.rows agg_level)).length = _
    unfold allregaezOf
    by_cases h : agg_level = 2
    · rw [if_pos h, if_pos h, pyInsert_length, hgroup]
    · rw [if_neg h, if_neg h, hgroup]
      omega
  constructor
  · rw [haez]
    show _ = (allregnumberOf rn agg_level).length
    rw [allregnumberOf_length]
  · exact haez

/-- Witness: on the concrete two-region table at aggregation level two the
two returned collections have equal length. -/
theorem c9_per_region_list_count_witness : c3out.allregaez.length = c3out.allregnumber.length :=
  (c9_per_region_list_count c3table ["crops"] 2005 2010 "sc" c3dict 2 1000 c3out rfl).1

/-- C3 amended: under aggregation level two the per-region metric-index
lists hold exactly one empty placeholder list, and its position is the
Python-insert resolution of the index one less than the position of the
special-case region name in the sorted region-value array; the position is
derived from the sorted region names, not from the sorted region numbers. -/
theorem c3_taiwan_placeholder_position (t : GcamTable) (gcam_landclasses : List String)
    (start_yr end_yr : Int) (scen : String) (region_dict : RegVal → Option Int)
    (area_factor : Rat) (out : GcamOut)
    (hout : read_gcam_file t gcam_landclasses start_yr end_yr scen region_dict
      2 area_factor = Except.ok out) :
    out.allregaez[pyResolve (taiwanIdxOf out.allreg) (out.allregaez.length - 1)]? =
      some ([] : List Nat) ∧
    ∀ j : Nat, out.allregaez[j]? = some ([] : List Nat) →
      j = pyResolve (taiwanIdxOf out.allreg) (out.allregaez.length - 1) := by
  obtain ⟨rn, hrn, hout_eq⟩ := read_gcam_ok_out hout
  subst hout_eq
  have hreg : (mkGcamOut t start_yr end_yr rn 2 area_factor).allreg
      = allregOf t.rows 2 := rfl
  have haez : (mkGcamOut t start_yr end_yr rn 2 area_factor).allregaez
      = pyInsert (groupLists (rn.zip (gcamMetricOf t))) (taiwanIdxOf (allregOf t.rows 2)) [] := by
    show allregaezOf rn (gcamMetricOf t) 2 (allregOf t.rows 2) = _
    unfold allregaezOf
    rw [if_pos rfl]
  rw [hreg, haez, pyInsert_length, Nat.add_sub_cancel]
  constructor
  · exact pyInsert_getElem_self _ _ _
  · intro j hj
    by_contra hne
    have hmem := pyInsert_getElem_other _ _ _ hne hj
    exact groupLists_ne_nil _ _ hmem rfl

/-- Witness: the placeholder-position theorem applied to the concrete
two-region table. -/
theorem c3_taiwan_placeholder_position_witness :
    c3out.allregaez[pyResolve (taiwanIdxOf c3out.allreg) (c3out.allregaez.length - 1)]? =
      some ([] : List Nat) :=
  (c3_taiwan_placeholder_position c3table ["crops"] 2005 2010 "sc" c3dict 1000 c3out rfl).1

/-- C3 counterexample: on the concrete table with regions USA mapped to one
and China mapped to eleven under aggregation level two, the sorted region
numbers are one, eleven, thirty, so the claimed insert position computed
from the sorted region-number ordering is index one, yet the empty
placeholder sits at index zero: the element at index one is not empty, and
it is not immediately before the parent region entry either. -/
theorem c3_counterexample :
    read_gcam_file c3table ["crops"] 2005 2010 "sc" c3dict 2 1000 = Except.ok c3out ∧
    c3out.allregnumber = [1, 11, 30] ∧
    c3out.allregaez = [[], [1], [2]] ∧
    c3out.allregaez[(List.indexOf (30 : Int) c3out.allregnumber) - 1]? ≠
      some ([] : List Nat) := by
  refine ⟨rfl, by decide, by decide, by decide⟩

/-- An allocation file on disk: its byte size as os.stat reports it, the
number of data rows, and the named columns pandas would parse from it. -/
structure AllocFile where
  size : Nat
  nrows : Nat
  cols : List (String × List String)
deriving DecidableEq

/-- Lookup of a named column in a column list, first match wins. -/
def colGet? (cols : List (String × List String)) (k : String) : Option (List String) :=
  (cols.find? (fun p => decide (p.1 = k))).map Prod.snd

/-- The shapes a call to read_alloc can return: the Python function returns
a three-tuple, a two-tuple, a bare array, the empty-file pair of an empty
list and an empty one-dimensional array, or the implicit None. -/
inductive AllocResult where
  | triple (fcs tcs : List String) (arr : List (List String))
  | pair (tcs : List String) (arr : List (List String))
  | single (arr : List (List String))
  | listArr1 (cls : List String) (arr : List Rat)
  | noneVal
deriving DecidableEq

/-- Allocation-matrix reader translated from read_alloc of reader.py: the
target column name is lower-cased, a zero-byte file short-circuits to an
empty list and an empty array, otherwise the frame columns are lower-cased,
the target class column is extracted lower-cased, the remaining columns
form the value matrix, and the output level selects the returned shape,
every unrecognized level falling through to None. -/
def read_alloc (f : AllocFile) (lc_col : String) (output_level : Int) :
    Except PyErr AllocResult :=
  let col := pyLower lc_col
  if f.size ≠ 0 then
    let cols := f.cols.map (fun p => (pyLower p.1, p.2))
    match colGet? cols col with
    | none => Except.error (PyErr.keyError col)
    | some tcol =>
      let tcs := tcol.map pyLower
      let fcs := (cols.map Prod.fst).filter (fun c => decide (c ≠ col))
      let arr := (List.range f.nrows).map (fun i =>
        fcs.map (fun c => ((colGet? cols c).getD []).getD i ""))
      if output_level = 3 then Except.ok (AllocResult.triple fcs tcs arr)
      else if output_level = 2 then Except.ok (AllocResult.pair tcs arr)
      else if output_level = 1 then Except.ok (AllocResult.single arr)
      else Except.ok AllocResult.noneVal
  else Except.ok (AllocResult.listArr1 [] [])

/-- C8: on a zero-byte allocation file the reader returns the empty class
list paired with the empty array, for every output level and target column,
and never raises. -/
theorem c8_read_alloc_empty_file (f : AllocFile) (lc_col : String) (output_level : Int)
    (h : f.size = 0) :
    read_alloc f lc_col output_level = Except.ok (AllocResult.listArr1 [] []) := by
  unfold read_alloc
  rw [if_neg (by simp [h])]

/-- Concrete zero-byte allocation file. -/
def c8file : AllocFile := ⟨0, 3, [("landclass", ["water", "urban", "crops"])]⟩

/-- Witness: the zero-byte file yields the empty pair at an unusual output level. -/
theorem c8_read_alloc_empty_file_witness :
    read_alloc c8file "landclass" 7 = Except.ok (AllocResult.listArr1 [] []) :=
  c8_read_alloc_empty_file c8file "landclass" 7 rfl

/-- C10: on a non-empty allocation file holding the target column, every
output level other than three, two and one makes the reader fall through
all branches and return None without raising. -/
theorem c10_read_alloc_unknown_level (f : AllocFile) (lc_col : String) (output_level : Int)
    (hsize : f.size ≠ 0)
    (hcol : (colGet? (f.cols.map (fun p => (pyLower p.1, p.2))) (pyLower lc_col)).isSome)
    (h3 : output_level ≠ 3) (h2 : output_level ≠ 2) (h1 : output_level ≠ 1) :
    read_alloc f lc_col output_level = Except.ok AllocResult.noneVal := by
  unfold read_alloc
  rw [if_pos hsize]
  obtain ⟨tcol, htcol⟩ := Option.isSome_iff_exists.mp hcol
  simp only [htcol, if_neg h3, if_neg h2, if_neg h1]

/-- Concrete non-empty allocation file with a target column and one weight column. -/
def c10file : AllocFile :=
  ⟨42, 1, [("Landclass", ["Crops"]), ("forest", ["0.5"])]⟩

/-- Witness: output level four on the non-empty file returns None. -/
theorem c10_read_alloc_unknown_level_witness :
    read_alloc c10file "landclass" 4 = Except.ok AllocResult.noneVal :=
  c10_read_alloc_unknown_level c10file "landclass" 4 (by decide) (by decide)
    (by decide) (by decide) (by decide)

/-- The base-layer data frame: its row count and named numeric columns. -/
structure Frame where
  nrows : Nat
  cols : List (String × List Rat)
deriving DecidableEq

/-- Lookup of a named column in the frame, first match wins. -/
def Frame.get? (df : Frame) (k : String) : Option (List Rat) :=
  (df.cols.find? (fun p => decide (p.1 = k))).map Prod.snd

/-- Renaming of all frame columns to lower case. -/
def lowerFrame (df : Frame) : Frame :=
  ⟨df.nrows, df.cols.map (fun p => (pyLower p.1, p.2))⟩

/-- Row-major extraction of a list of named columns, the pandas selection
that raises a KeyError when any requested column is absent. -/
def getMatrix (df : Frame) (names : List String) : Option (List (List Rat)) :=
  if names.all (fun n => (df.get? n).isSome) then
    some ((List.range df.nrows).map (fun i =>
      names.map (fun n => ((df.get? n).getD []).getD i 0)))
  else none

/-- Coordinate extraction of read_base: the latcoord and loncoord naming
convention is tried first and latitude and longitude second; both absent
is a KeyError. -/
def coordsOf (df : Frame) : Option (List (Rat × Rat)) :=
  match df.get? "latcoord", df.get? "loncoord" with
  | some la, some lo => some (la.zip lo)
  | _, _ =>
    match df.get? "latitude", df.get? "longitude" with
    | some la, some lo => some (la.zip lo)
    | _, _ => none

/-- Configuration object consumed by read_base. -/
structure BaseConfig where
  pkey : String
  agg_level : Int
  metric : String
  model : String
  resin : Rat
deriving DecidableEq

/-- Messages read_base sends to the logger. -/
inductive BaseLog where
  | errFieldsNotInBase
  | errKeyDetail (missing : List String)
  | warnWaterMissing
deriving DecidableEq

/-- The requested land-cover fields that are absent from the frame. -/
def missingOf (df : Frame) (names : List String) : List String :=
  names.filter (fun n => (df.get? n).isNone)

/-- Water column extraction: the column itself when present, otherwise a
warning and a zero array shaped like the grid-id column. -/
def waterOf (df : Frame) (grid : List Rat) : List BaseLog × List Rat :=
  match df.get? "water" with
  | some w => ([], w)
  | none => ([BaseLog.warnWaterMissing], List.replicate grid.length 0)

/-- Region and metric derivation of read_base by aggregation level: level
two reads both id columns, level one reads them but replaces the region
with a constant-one array, and any other level leaves both variables
unbound, modelled as none. -/
def rmOf (c : BaseConfig) (df : Frame) : Except PyErr (Option (List Rat × List Rat)) :=
  if c.agg_level = 2 then
    match df.get? "region_id" with
    | none => Except.error (PyErr.keyError "region_id")
    | some r =>
      match df.get? (pyLower c.metric ++ "_id") with
      | none => Except.error (PyErr.keyError (pyLower c.metric ++ "_id"))
      | some m => Except.ok (some (r, m))
  else if c.agg_level = 1 then
    match df.get? "region_id" with
    | none => Except.error (PyErr.keyError "region_id")
    | some r =>
      match df.get? (pyLower c.metric ++ "_id") with
      | none => Except.error (PyErr.keyError (pyLower c.metric ++ "_id"))
      | some m => Except.ok (some (List.replicate r.length 1, m))
  else Except.ok none

/-- The special-case remap of read_base: for the designated model at
aggregation level two every region value thirty becomes eleven. -/
def remapRegion (c : BaseConfig) (region : List Rat) : List Rat :=
  if pyLower c.model = "gcam" ∧ c.agg_level = 2 then
    region.map (fun x => if x = 30 then 11 else x)
  else region

/-- Per-cell geodetic area: the latitude correction factor times the
kilometre extent of one degree at the equator in both axes times the
squared resolution. -/
def cellAreaOf (cos_fn rad_fn : Rat → Rat) (resin : Rat) (coords : List (Rat × Rat)) :
    List Rat :=
  coords.map (fun p => cos_fn (rad_fn p.1) * (111.32 * 110.57) * resin ^ 2)

/-- Per-cell truncation fraction: recorded land cover plus water over the
squared resolution. -/
def cellTrunkOf (resin : Rat) (raw : List (List Rat)) (water : List Rat) : List Rat :=
  List.zipWith (fun row w => (row.sum + w) / resin ^ 2) raw water

/-- Area correction of the land-cover matrix: every row is divided by the
squared resolution and scaled by its cell area. -/
def adjustLudata (resin : Rat) (raw : List (List Rat)) (cellarea : List Rat) :
    List (List Rat) :=
  List.zipWith (fun row a => row.map (fun v => v / resin ^ 2 * a)) raw cellarea

/-- Everything read_base returns. -/
structure BaseOut where
  spat_ludata : List (List Rat)
  spat_water : List Rat
  spat_coords : List (Rat × Rat)
  spat_metric_region : Option (List Rat)
  spat_grid_id : List Rat
  spat_metric : List Rat
  spat_region : List Rat
  ngrids : Nat
  cellarea : List Rat
  celltrunk : List Rat
deriving DecidableEq

/-- Base-layer normalizer translated from read_base of reader.py.  The
failure order follows the evaluation order of the source: a missing
coordinate convention or primary-key column raises a KeyError at its
extraction; a missing region or metric id column raises a KeyError inside
the aggregation-level branch; a missing requested land-cover column is
caught, logged and swallowed, so the later row sum dies on the unbound
land-cover variable; an unsupported aggregation level leaves the region
variable unbound until the final return statement. -/
def baseLogs1 (df : Frame) (names : List String) : List BaseLog :=
  match getMatrix df names with
  | some _ => []
  | none => [BaseLog.errFieldsNotInBase, BaseLog.errKeyDetail (missingOf df names)]

def read_base (cos_fn rad_fn : Rat → Rat) (c : BaseConfig) (df0 : Frame)
    (spat_landclasses : List String) : List BaseLog × Except PyErr BaseOut :=
  match getMatrix (lowerFrame df0) spat_landclasses, coordsOf (lowerFrame df0),
      (lowerFrame df0).get? c.pkey, rmOf c (lowerFrame df0) with
  | _, none, _, _ =>
    (baseLogs1 (lowerFrame df0) spat_landclasses, Except.error (PyErr.keyError "latitude"))
  | _, some _, none, _ =>
    (baseLogs1 (lowerFrame df0) spat_landclasses, Except.error (PyErr.keyError c.pkey))
  | _, some _, some grid, Except.error e =>
    (baseLogs1 (lowerFrame df0) spat_landclasses ++ (waterOf (lowerFrame df0) grid).1,
     Except.error e)
  | none, some _, some grid, Except.ok _ =>
    (baseLogs1 (lowerFrame df0) spat_landclasses ++ (waterOf (lowerFrame df0) grid).1,
     Except.error (PyErr.unboundLocal "spat_ludata"))
  | some _, some _, some grid, Except.ok none =>
    (baseLogs1 (lowerFrame df0) spat_landclasses ++ (waterOf (lowerFrame df0) grid).1,
     Except.error (PyErr.unboundLocal "spat_region"))
  | some raw, some coords, some grid, Except.ok (some rm) =>
    (baseLogs1 (lowerFrame df0) spat_landclasses ++ (waterOf (lowerFrame df0) grid).1,
     Except.ok
       { spat_ludata := adjustLudata c.resin raw (cellAreaOf cos_fn rad_fn c.resin coords)
         spat_water := (waterOf (lowerFrame df0) grid).2
         spat_coords := coords
         spat_metric_region := (lowerFrame df0).get? "regaez"
         spat_grid_id := grid
         spat_metric := rm.2
         spat_region := remapRegion c rm.1
         ngrids := (lowerFrame df0).nrows
         cellarea := cellAreaOf cos_fn rad_fn c.resin coords
         celltrunk := cellTrunkOf c.resin raw (waterOf (lowerFrame df0) grid).2 })

theorem read_base_ok_elim {cos_fn rad_fn : Rat → Rat} {c : BaseConfig} {df0 : Frame}
    {lcs : List String} {logs : List BaseLog} {out : BaseOut} {raw : List (List Rat)}
    (hraw : getMatrix (lowerFrame df0) lcs = some raw)
    (hout : read_base cos_fn rad_fn c df0 lcs = (logs, Except.ok out)) :
    out.cellarea = cellAreaOf cos_fn rad_fn c.resin out.spat_coords ∧
    out.celltrunk = cellTrunkOf c.resin raw out.spat_water ∧
    out.spat_ludata = adjustLudata c.resin raw out.cellarea := by
  unfold read_base at hout
  rw [hraw] at hout
  cases hco : coordsOf (lowerFrame df0) with
  | none =>
    rw [hco] at hout
    exact absurd hout (by simp)
  | some coords =>
    rw [hco] at hout
    cases hg : (lowerFrame df0).get? c.pkey with
    | none =>
      rw [hg] at hout
      exact absurd hout (by simp)
    | some grid =>
      rw [hg] at hout
      cases hrm : rmOf c (lowerFrame df0) with
      | error e =>
        rw [hrm] at hout
        exact absurd hout (by simp)
      | ok rmOpt =>
        rw [hrm] at hout
        cases rmOpt with
        | none =>
          exact absurd hout (by simp)
        | some rm =>
          simp only [Prod.mk.injEq, Except.ok.injEq] at hout
          obtain ⟨-, hsout⟩ := hout
          rw [← hsout]
          refine ⟨rfl, rfl, rfl⟩

/-- C7: on the success path the derived outputs of the base-layer
normalizer satisfy, row by row, the cell-area formula with the latitude
correction, the truncation-fraction formula over the raw land-cover row
plus water, and the area-corrected land-cover values equal to raw value
times cell area over squared resolution. -/
theorem c7_read_base_formulas (cos_fn rad_fn : Rat → Rat) (c : BaseConfig) (df0 : Frame)
    (spat_landclasses : List String) (raw : List (List Rat)) (logs : List BaseLog)
    (out : BaseOut)
    (hraw : getMatrix (lowerFrame df0) spat_landclasses = some raw)
    (hout : read_base cos_fn rad_fn c df0 spat_landclasses = (logs, Except.ok out)) :
    (∀ (i : Nat) (lat lon : Rat), out.spat_coords[i]? = some (lat, lon) →
      out.cellarea[i]? = some (cos_fn (rad_fn lat) * (111.32 * 110.57) * c.resin ^ 2)) ∧
    (∀ (i : Nat) (row : List Rat) (w : Rat),
      raw[i]? = some row → out.spat_water[i]? = some w →
      out.celltrunk[i]? = some ((row.sum + w) / c.resin ^ 2)) ∧
    (∀ (i : Nat) (row : List Rat) (a : Rat),
      raw[i]? = some row → out.cellarea[i]? = some a →
      out.spat_ludata[i]? = some (row.map (fun v => v * (a / c.resin ^ 2)))) := by
  obtain ⟨hca, htr, hlu⟩ := read_base_ok_elim hraw hout
  refine ⟨?_, ?_, ?_⟩
  · intro i lat lon hc
    rw [hca]
    unfold cellAreaOf
    rw [List.getElem?_map, hc]
    rfl
  · intro i row w hrow hw
    rw [htr]
    unfold cellTrunkOf
    rw [List.getElem?_zipWith, hrow, hw]
  · intro i row a hrow ha
    rw [hlu]
    unfold adjustLudata
    rw [List.getElem?_zipWith, hrow, ha]
    show some (row.map (fun v => v / c.resin ^ 2 * a)) = _
    congr 1
    apply List.map_congr_left
    intro v _
    rw [div_mul_eq_mul_div, mul_div_assoc]

/-- Fallback output used when extracting from an error value. -/
def emptyBaseOut : BaseOut := ⟨[], [], [], none, [], [], [], 0, [], []⟩

/-- Extract the output of a successful base-layer read, with an inert fallback. -/
def okB (e : Except PyErr BaseOut) : BaseOut :=
  match e with
  | Except.ok o => o
  | Except.error _ => emptyBaseOut

/-- Concrete configuration for the success-path base-layer run. -/
def c7cfg : BaseConfig := ⟨"grid_id", 2, "basin", "gcam", 1⟩

/-- Concrete single-cell base-layer frame holding every needed column. -/
def c7df : Frame :=
  ⟨1, [("forest", [0.4]), ("latcoord", [30]), ("loncoord", [5]), ("grid_id", [7]),
       ("water", [1]), ("region_id", [30]), ("basin_id", [3])]⟩

/-- Output of read_base on the concrete single-cell frame. -/
def c7out : BaseOut :=
  okB (read_base (fun x => x) (fun x => x) c7cfg c7df ["forest"]).2

/-- Witness: the cell-area formula evaluated on the concrete single-cell frame. -/
theorem c7_read_base_formulas_witness :
    c7out.cellarea[0]? = some ((30 : Rat) * (111.32 * 110.57) * c7cfg.resin ^ 2) :=
  (c7_read_base_formulas (fun x => x) (fun x => x) c7cfg c7df ["forest"] [[0.4]] []
    c7out rfl rfl).1 0 30 5 rfl

/-- Concrete configuration for the missing-land-cover-column run. -/
def c4cfg : BaseConfig := ⟨"grid_id", 1, "basin", "gcam", 1⟩

/-- Concrete base-layer frame with every column except the requested
land-cover field forest. -/
def c4df : Frame :=
  ⟨1, [("latcoord", [30]), ("loncoord", [5]), ("grid_id", [1]),
       ("water", [0]), ("region_id", [2]), ("basin_id", [3])]⟩

/-- C4 evaluation: on a base-layer frame missing the requested land-cover
column, read_base logs the missing-field error messages naming the absent
field but swallows the KeyError, keeps going, and aborts only later with
an UnboundLocalError on the never-assigned land-cover variable, not with
the missing-field failure the claim describes. -/
theorem c4_missing_field_unbound_local :
    read_base (fun x => x) (fun x => x) c4cfg c4df ["forest"] =
      ([BaseLog.errFieldsNotInBase, BaseLog.errKeyDetail ["forest"]],
       Except.error (PyErr.unboundLocal "spat_ludata")) := rfl

end Demeter
